import Mathlib

set_option maxRecDepth 100000

/-!
Shallow embedding of `src/main.rs` of FEN.rs: a command-line utility that
parses a Forsyth–Edwards Notation (FEN) string, validates its structural
components, and renders the board.  Pure functions of the source become Lean
functions; the `main` pipeline becomes a function from the parsed arguments
to the observable run result (stdout lines, stderr lines, exit code), with
each Rust vector index `fenvec[i]` modelled as the fallible `fenvec[i]?` in
the `Option` monad, so that `none` models an index-out-of-range panic.
The graphical window branch performs no text output and is not modelled.
String primitives from the Rust standard library (`split_whitespace`,
`split`, `str::parse::<i32>`) are re-implemented over character lists so
that every definition evaluates inside the kernel.
-/

namespace FENrs

/-- The command-line arguments as parsed by clap (`struct Args`). -/
structure Args where
  fen : String
  window : Bool
  info : Bool
  debug : Bool

/-- Observable outcome of one run of `main`: the lines printed by `println!`
(stdout), the lines printed by `eprintln!` (stderr), and the exit code. -/
structure RunResult where
  stdout : List String
  stderr : List String
  exitCode : Nat
deriving DecidableEq, Repr

/-- `str::split_whitespace` on a character list: maximal runs of
non-whitespace characters, with no empty items.  (Rust splits on Unicode
whitespace; the ASCII whitespace recognised by `Char.isWhitespace` covers
every input relevant here.) -/
def wsSplit : List Char → List (List Char)
  | [] => []
  | c :: cs =>
    let r := wsSplit cs
    if c.isWhitespace then r
    else
      match cs with
      | d :: _ =>
        if d.isWhitespace then [c] :: r
        else
          match r with
          | g :: gs => (c :: g) :: gs
          | [] => [[c]]
      | [] => [[c]]

/-- `args.fen.split_whitespace().collect::<Vec<String>>()` (main.rs line 162). -/
def splitWhitespace (s : String) : List String :=
  (wsSplit s.toList).map fun cs => String.mk cs

/-- `str::split` with a single-character separator, on a character list:
the groups between occurrences of `sep`, empties kept. -/
def charSplit (sep : Char) : List Char → List (List Char)
  | [] => [[]]
  | c :: cs =>
    match charSplit sep cs with
    | [] => []
    | g :: gs => if c = sep then [] :: g :: gs else (c :: g) :: gs

/-- `fenvec[0].split("/")` (main.rs line 233). -/
def splitSlash (s : String) : List String :=
  (charSplit '/' s.toList).map fun cs => String.mk cs

/-- The numeric value of a non-empty all-digit character list, `none`
otherwise. -/
def digitsVal? (cs : List Char) : Option Nat :=
  match cs with
  | [] => none
  | _ =>
    if cs.all (fun c => c.isDigit) then
      some (cs.foldl (fun a c => 10 * a + (c.toNat - 48)) 0)
    else none

/-- `str::parse::<i32>` (main.rs line 241): an optional sign followed by one
or more ASCII digits, rejecting values outside the `i32` range. -/
def parseI32 (s : String) : Option Int :=
  match s.toList with
  | '+' :: cs =>
    (digitsVal? cs).bind fun n =>
      if n ≤ 2 ^ 31 - 1 then some (n : Int) else none
  | '-' :: cs =>
    (digitsVal? cs).bind fun n =>
      if n ≤ 2 ^ 31 then some (-(n : Int)) else none
  | cs =>
    (digitsVal? cs).bind fun n =>
      if n ≤ 2 ^ 31 - 1 then some (n : Int) else none

/-- `fn translate_piece(x: &str) -> &str` (main.rs lines 301–326):
maps one FEN placement character (as a string) to its display glyph,
digits `"1"`–`"8"` to themselves, and anything else to `""`. -/
def translate_piece (x : String) : String :=
  match x with
  | "p" => "♟"
  | "n" => "♞"
  | "b" => "♝"
  | "r" => "♜"
  | "q" => "♛"
  | "k" => "♚"
  | "P" => "♙"
  | "N" => "♘"
  | "B" => "♗"
  | "R" => "♖"
  | "Q" => "♕"
  | "K" => "♔"
  | "1" => "1"
  | "2" => "2"
  | "3" => "3"
  | "4" => "4"
  | "5" => "5"
  | "6" => "6"
  | "7" => "7"
  | "8" => "8"
  | _ => ""

/-- One rank of the board model (main.rs lines 238–251): the rank string is
scanned one character at a time (`split_inclusive("")` over char boundaries,
empties filtered); each character is translated; a translated value that
parses as an integer `v` contributes `v as usize` empty-string cells, any
other translated value contributes itself as one cell.  (The Rust
`.to_string().split("").collect::<String>()` step is the identity on
strings and is omitted; `v as usize` is `v` modulo `2^64` on the
non-negative values `parseI32` can produce here.) -/
def rankCells (rank : String) : List String :=
  rank.toList.flatMap fun c =>
    let t := translate_piece (String.mk [c])
    match parseI32 t with
    | some v => List.replicate ((v % 2 ^ 64).toNat) ""
    | none => [t]

/-- The per-rank board model (main.rs lines 233–253): the placement field is
split on `"/"` and each rank is expanded by `rankCells`. -/
def fenTranslated (placement : String) : List (List String) :=
  (splitSlash placement).map rankCells

/-- The flat board model: the concatenation of the per-rank expanded cell
sequences (`fentranslated.concat()` at main.rs line 260). -/
def boardCells (placement : String) : List String :=
  (fenTranslated placement).flatten

/-- `"KQBNRPkqbnrp12345678/".chars().collect::<Vec<_>>()` (main.rs line 175):
the legal alphabet of the placement field. -/
def legal_chars : List Char := "KQBNRPkqbnrp12345678/".toList

/-- The placement field passes the fatal alphabet check (main.rs line 177):
every character belongs to `legal_chars`. -/
def layoutOk (f0 : String) : Prop := ∀ c ∈ f0.toList, c ∈ legal_chars

instance (f0 : String) : Decidable (layoutOk f0) := by
  unfold layoutOk; infer_instance

/-- The castling-rights character set `['-', 'K', 'Q', 'k', 'q']`
(main.rs lines 210 and 217). -/
def castleChars : List Char := ['-', 'K', 'Q', 'k', 'q']

/-- `eprintln!` line at main.rs 167. -/
def elemCountErr : String := "Error: FEN does not contain 6 elements"

/-- `eprintln!` line at main.rs 168. -/
def exampleFenErr : String :=
  "Example FEN: rnbqkbnr/pppppppp/8/8/8/8/PPPPPPPP/RNBQKBNR w KQkq - 0 1"

/-- `eprintln!` line at main.rs 178, naming the offending placement field. -/
def layoutErr (f0 : String) : String :=
  "Error: Unexpected symbol in layout string " ++ f0

/-- `eprintln!` line at main.rs 188. -/
def moveErr : String := "Error: Expected \x27w\x27 or \x27b\x27 in second element"

/-- `eprintln!` line at main.rs 211–213. -/
def castleFindErr : String :=
  "Error: Expected one or more of [KQkq-] in third element to denote castling rights"

/-- `eprintln!` line at main.rs 219. -/
def castleCharErr : String :=
  "Error: Unexpected symbol in third element (castling rights)"

/-- The active-color block (main.rs lines 184–190), run when the field
exists and `--info` is set: the stdout and stderr lines it prints. -/
def moveMsgs (f1 : String) : List String × List String :=
  match f1 with
  | "w" => (["White to move"], [])
  | "b" => (["Black to move"], [])
  | _ => ([], [moveErr])

/-- The castling-rights block (main.rs lines 193–221), run when the field
exists: the stdout lines (under `--info`) and the stderr lines (printed
independently of `--info`). -/
def castlingMsgs (f2 : String) (info : Bool) : List String × List String :=
  let outs :=
    if f2 = "-" ∧ info then ["Neither side can castle"]
    else if info then
      (if 'K' ∈ f2.toList then ["White can castle kingside"] else []) ++
      (if 'Q' ∈ f2.toList then ["White can castle queenside"] else []) ++
      (if 'k' ∈ f2.toList then ["Black can castle kingside"] else []) ++
      (if 'q' ∈ f2.toList then ["Black can castle queenside"] else [])
    else []
  let errs :=
    (if ∀ c ∈ f2.toList, c ∉ castleChars then [castleFindErr] else []) ++
    (if ¬ ∀ c ∈ f2.toList, c ∈ castleChars then [castleCharErr] else [])
  (outs, errs)

/-- The en-passant block (main.rs lines 224–230), run when the field exists
and `--info` is set. -/
def epMsgs (f3 : String) : List String :=
  if f3 = "-" then ["No en-passant target square is available"]
  else ["En-passant target square is " ++ f3]

/-- Rows of at most 8 cells, left-to-right, with enough fuel to consume the
whole list. -/
def chunksAux (fuel : Nat) (l : List String) : List (List String) :=
  match fuel, l with
  | _, [] => []
  | 0, l => [l]
  | fuel + 1, l => l.take 8 :: chunksAux fuel (l.drop 8)

/-- Models the `term_grid` external crate's `fit_into_columns(8)` with
`Filling::Spaces(1)` and `Direction::LeftToRight` (main.rs lines 255–265):
the cells laid out 8 per row, single-space separated.  (The crate
additionally pads cells to per-column widths; no property below inspects
the grid text, only its presence as one printed line.) -/
def renderGrid (cells : List String) : String :=
  String.intercalate "\x0a"
    ((chunksAux cells.length cells).map fun row => String.intercalate " " row)

/-- The single stdout line produced by `println!("\n{}", grid...)`
(main.rs line 265). -/
def gridLine (cells : List String) : String := "\x0a" ++ renderGrid cells

/-- `fn main` (main.rs lines 159–296) as a function of the split FEN fields
and the `--info` flag.  `some r` is a run reaching `std::process::exit` or
the end of `main` with observable output `r`; `none` models an
index-out-of-range panic on the fields vector (each Rust `fenvec[i]` is the
fallible `fenvec[i]?`).  The `--window` branch (lines 268–295) draws the
board in a native window, prints nothing, and ends with exit code 0, so it
does not change the run result; `--debug` is unused by the source. -/
def mainRun (fenvec : List String) (info : Bool) : Option RunResult := do
  -- lines 166–172: field-count check, fatal only when zero fields
  let countErrs : List String :=
    if fenvec.length = 6 then [] else [elemCountErr, exampleFenErr]
  if fenvec.length < 1 then
    return { stdout := [], stderr := countErrs, exitCode := 1 }
  -- lines 175–181: placement alphabet check, fatal
  let fatal? : Option String ←
    if 0 < fenvec.length then do
      let f0 ← fenvec[0]?
      if layoutOk f0 then pure none else pure (some (layoutErr f0))
    else pure none
  match fatal? with
  | some e =>
    return { stdout := [], stderr := countErrs ++ [e], exitCode := 1 }
  | none => do
    -- lines 184–190: active color
    let mv : List String × List String ←
      if 1 < fenvec.length ∧ info then do
        let f1 ← fenvec[1]?
        pure (moveMsgs f1)
      else pure ([], [])
    -- lines 193–221: castling rights
    let ca : List String × List String ←
      if 2 < fenvec.length then do
        let f2 ← fenvec[2]?
        pure (castlingMsgs f2 info)
      else pure ([], [])
    -- lines 224–230: en passant
    let ep : List String ←
      if 3 < fenvec.length ∧ info then do
        let f3 ← fenvec[3]?
        pure (epMsgs f3)
      else pure []
    -- lines 233–265: board model and terminal grid (unguarded `fenvec[0]`)
    let f0 ← fenvec[0]?
    let cells := boardCells f0
    return { stdout := mv.1 ++ ca.1 ++ ep ++ [gridLine cells],
             stderr := countErrs ++ mv.2 ++ ca.2,
             exitCode := 0 }

/-- The whole process on parsed arguments: split the FEN on whitespace
(main.rs line 162) and run the pipeline. -/
def fenRun (a : Args) : Option RunResult :=
  mainRun (splitWhitespace a.fen) a.info

/-- The same pipeline as `mainRun` in total form: every guarded vector read
`fenvec[i]` is written `fenvec.getD i ""`, which `mainRun_eq` below proves
equivalent (each read is in range when reached). -/
def mainResult (fenvec : List String) (info : Bool) : RunResult :=
  if fenvec.length < 1 then
    ⟨[], if fenvec.length = 6 then [] else [elemCountErr, exampleFenErr], 1⟩
  else if layoutOk (fenvec.getD 0 "") then
    ⟨(if 1 < fenvec.length ∧ info then moveMsgs (fenvec.getD 1 "") else ([], [])).1 ++
       (if 2 < fenvec.length then castlingMsgs (fenvec.getD 2 "") info else ([], [])).1 ++
       (if 3 < fenvec.length ∧ info then epMsgs (fenvec.getD 3 "") else []) ++
       [gridLine (boardCells (fenvec.getD 0 ""))],
     (if fenvec.length = 6 then [] else [elemCountErr, exampleFenErr]) ++
       (if 1 < fenvec.length ∧ info then moveMsgs (fenvec.getD 1 "") else ([], [])).2 ++
       (if 2 < fenvec.length then castlingMsgs (fenvec.getD 2 "") info else ([], [])).2,
     0⟩
  else
    ⟨[], (if fenvec.length = 6 then [] else [elemCountErr, exampleFenErr]) ++
       [layoutErr (fenvec.getD 0 "")], 1⟩

/-- The 20 inputs on which `translate_piece` does not fall through to the
catch-all arm. -/
def pieceKeys : List String :=
  ["p", "n", "b", "r", "q", "k", "P", "N", "B", "R", "Q", "K",
   "1", "2", "3", "4", "5", "6", "7", "8"]

theorem mainRun_eq (fenvec : List String) (info : Bool) :
    mainRun fenvec info = some (mainResult fenvec info) := by
  match fenvec, info with
  | [], info => cases info <;> rfl
  | [f0], info =>
    cases info <;> simp [mainRun, mainResult] <;> split_ifs <;> simp_all
  | [f0, f1], info =>
    cases info <;> simp [mainRun, mainResult] <;> split_ifs <;> simp_all
  | [f0, f1, f2], info =>
    cases info <;> simp [mainRun, mainResult] <;> split_ifs <;> simp_all
  | [f0, f1, f2, f3], info =>
    cases info <;> simp [mainRun, mainResult] <;> split_ifs <;> simp_all
  | f0 :: f1 :: f2 :: f3 :: f4 :: t, info =>
    cases info <;> simp [mainRun, mainResult] <;> split_ifs <;> simp_all

/-- Two strings differ when one begins with a prefix the other does not
have (used to separate a fixed message from a message carrying an
arbitrary suffix, such as `layoutErr f0` or `gridLine cells`). -/
theorem append_ne_of_take (p s t : String)
    (h : t.data.take p.data.length ≠ p.data) : p ++ s ≠ t := by
  intro he
  apply h
  rw [← he, String.data_append]
  exact List.take_left p.data s.data

/-- Every stdout line of the active-color block is one of the two move
announcements. -/
theorem moveMsgs_fst_mem (f1 s : String) (h : s ∈ (moveMsgs f1).1) :
    s = "White to move" ∨ s = "Black to move" := by
  unfold moveMsgs at h
  split at h <;> simp_all

/-- Every stderr line of the active-color block is `moveErr`. -/
theorem moveMsgs_snd_mem (f1 s : String) (h : s ∈ (moveMsgs f1).2) :
    s = moveErr := by
  unfold moveMsgs at h
  split at h <;> simp_all

/-- The active-color block on `"w"`. -/
theorem moveMsgs_w : moveMsgs "w" = (["White to move"], []) := rfl

/-- The active-color block on `"b"`. -/
theorem moveMsgs_b : moveMsgs "b" = (["Black to move"], []) := rfl

/-- The active-color block on anything else. -/
theorem moveMsgs_other (f1 : String) (hw : f1 ≠ "w") (hb : f1 ≠ "b") :
    moveMsgs f1 = ([], [moveErr]) := by
  unfold moveMsgs
  split <;> simp_all

/-- The stdout component of the castling block, unfolded. -/
theorem castlingMsgs_fst (f2 : String) (info : Bool) :
    (castlingMsgs f2 info).1 =
      if f2 = "-" ∧ info then ["Neither side can castle"]
      else if info then
        (if 'K' ∈ f2.toList then ["White can castle kingside"] else []) ++
        (if 'Q' ∈ f2.toList then ["White can castle queenside"] else []) ++
        (if 'k' ∈ f2.toList then ["Black can castle kingside"] else []) ++
        (if 'q' ∈ f2.toList then ["Black can castle queenside"] else [])
      else [] := rfl

/-- The stderr component of the castling block, unfolded. -/
theorem castlingMsgs_snd (f2 : String) (info : Bool) :
    (castlingMsgs f2 info).2 =
      (if ∀ c ∈ f2.toList, c ∉ castleChars then [castleFindErr] else []) ++
      (if ¬ ∀ c ∈ f2.toList, c ∈ castleChars then [castleCharErr] else []) := rfl

/-- With the info flag unset the castling block prints nothing to stdout. -/
theorem castlingMsgs_fst_false (f2 : String) :
    (castlingMsgs f2 false).1 = [] := by
  simp [castlingMsgs_fst]

/-- Every stdout line of the castling block is one of the five castling
announcements. -/
theorem castlingMsgs_fst_mem (f2 : String) (info : Bool) (s : String)
    (h : s ∈ (castlingMsgs f2 info).1) :
    s = "Neither side can castle" ∨
    s = "White can castle kingside" ∨ s = "White can castle queenside" ∨
    s = "Black can castle kingside" ∨ s = "Black can castle queenside" := by
  rw [castlingMsgs_fst] at h
  split_ifs at h <;> simp_all <;> tauto

/-- Every stderr line of the castling block is one of the two castling
errors. -/
theorem castlingMsgs_snd_mem (f2 : String) (info : Bool) (s : String)
    (h : s ∈ (castlingMsgs f2 info).2) :
    s = castleFindErr ∨ s = castleCharErr := by
  rw [castlingMsgs_snd] at h
  split_ifs at h <;> simp_all

/-- `castleFindErr` is printed exactly when no character of the field is in
`castleChars` (main.rs line 210). -/
theorem castleFindErr_mem_iff (f2 : String) (info : Bool) :
    castleFindErr ∈ (castlingMsgs f2 info).2 ↔
      ∀ c ∈ f2.toList, c ∉ castleChars := by
  have hne : castleFindErr ≠ castleCharErr := by decide
  rw [castlingMsgs_snd]
  split_ifs with h1 h2 <;> simp_all

/-- `castleCharErr` is printed exactly when some character of the field is
outside `castleChars` (main.rs lines 215–220). -/
theorem castleCharErr_mem_iff (f2 : String) (info : Bool) :
    castleCharErr ∈ (castlingMsgs f2 info).2 ↔
      ¬ ∀ c ∈ f2.toList, c ∈ castleChars := by
  have hne : castleCharErr ≠ castleFindErr := by decide
  rw [castlingMsgs_snd]
  split_ifs with h1 h2 <;> simp_all

/-- Every line of the en-passant block is one of its two announcements. -/
theorem epMsgs_mem (f3 s : String) (h : s ∈ epMsgs f3) :
    s = "No en-passant target square is available" ∨
    s = "En-passant target square is " ++ f3 := by
  unfold epMsgs at h
  split_ifs at h <;> simp_all

end FENrs

namespace FENrs

/-- C1: For the starting-position FEN
`rnbqkbnr/pppppppp/8/8/8/8/PPPPPPPP/RNBQKBNR w KQkq - 0 1`, the board model
produced by splitting the placement field (the first whitespace-separated
field) on `/`, translating each character and expanding digits into empty
cells has exactly 64 cells, whose first 8 cells are, in order, the black
glyphs ♜♞♝♛♚♝♞♜ and whose last 8 cells are, in order, the white glyphs
♖♘♗♕♔♗♘♖. -/
theorem C1_start_position_board :
    (splitWhitespace
        "rnbqkbnr/pppppppp/8/8/8/8/PPPPPPPP/RNBQKBNR w KQkq - 0 1").getD 0 "" =
      "rnbqkbnr/pppppppp/8/8/8/8/PPPPPPPP/RNBQKBNR" ∧
    (boardCells "rnbqkbnr/pppppppp/8/8/8/8/PPPPPPPP/RNBQKBNR").length = 64 ∧
    (boardCells "rnbqkbnr/pppppppp/8/8/8/8/PPPPPPPP/RNBQKBNR").take 8 =
      ["♜", "♞", "♝", "♛", "♚", "♝", "♞", "♜"] ∧
    (boardCells "rnbqkbnr/pppppppp/8/8/8/8/PPPPPPPP/RNBQKBNR").drop 56 =
      ["♖", "♘", "♗", "♕", "♔", "♗", "♘", "♖"] := by
  decide

/-- C2: `translate_piece` returns ♟,♞,♝,♜,♛,♚ for `p,n,b,r,q,k`, ♙,♘,♗,♖,♕,♔
for `P,N,B,R,Q,K`, each digit string `"1"`–`"8"` unchanged, and the empty
string on every other input. -/
theorem C2_translate_piece (x : String) :
    translate_piece "p" = "♟" ∧ translate_piece "n" = "♞" ∧
    translate_piece "b" = "♝" ∧ translate_piece "r" = "♜" ∧
    translate_piece "q" = "♛" ∧ translate_piece "k" = "♚" ∧
    translate_piece "P" = "♙" ∧ translate_piece "N" = "♘" ∧
    translate_piece "B" = "♗" ∧ translate_piece "R" = "♖" ∧
    translate_piece "Q" = "♕" ∧ translate_piece "K" = "♔" ∧
    (∀ d ∈ (["1", "2", "3", "4", "5", "6", "7", "8"] : List String),
      translate_piece d = d) ∧
    (x ∉ pieceKeys → translate_piece x = "") := by
  refine ⟨rfl, rfl, rfl, rfl, rfl, rfl, rfl, rfl, rfl, rfl, rfl, rfl,
    by decide, ?_⟩
  intro hx
  unfold translate_piece
  split <;> simp_all [pieceKeys]

/-- C2 witness: the catch-all arm at the concrete input `"x"`. -/
theorem C2_translate_piece_witness :
    translate_piece "x" = "" :=
  (C2_translate_piece "x").2.2.2.2.2.2.2.2.2.2.2.2.2 (by decide)

/-- C4: for every input FEN string that splits into zero
whitespace-separated fields, the process prints the
"FEN does not contain 6 elements" diagnostic (and the example line) to
standard error and exits with status 1 with an empty standard output, so
before any board construction or rendering. -/
theorem C4_zero_fields (a : Args) (h : splitWhitespace a.fen = []) :
    fenRun a =
      some { stdout := [], stderr := [elemCountErr, exampleFenErr],
             exitCode := 1 } := by
  unfold fenRun
  rw [h, mainRun_eq]
  rfl

/-- C4 witness: the empty FEN string. -/
theorem C4_zero_fields_witness :
    fenRun ⟨"", false, false, false⟩ =
      some { stdout := [], stderr := [elemCountErr, exampleFenErr],
             exitCode := 1 } :=
  C4_zero_fields ⟨"", false, false, false⟩ (by decide)

/-- C10: for every input FEN splitting into at least one
whitespace-separated field, no stage of the pipeline fails with an
index-out-of-range: every vector read in the model (each Rust `fenvec[i]`
is the fallible `fenvec[i]?`) succeeds, so the run produces a result. -/
theorem C10_fields_in_bounds (a : Args)
    (h : 1 ≤ (splitWhitespace a.fen).length) : (fenRun a).isSome := by
  unfold fenRun
  rw [mainRun_eq]
  rfl

/-- C10 witness: a two-field FEN. -/
theorem C10_fields_in_bounds_witness :
    1 ≤ (splitWhitespace "8/8/8/8/8/8/8/8 w").length ∧
    (fenRun ⟨"8/8/8/8/8/8/8/8 w", false, false, false⟩).isSome :=
  ⟨by decide, C10_fields_in_bounds ⟨"8/8/8/8/8/8/8/8 w", false, false, false⟩
    (by decide)⟩

/-- Standard output of a run that passes both fatal checks. -/
theorem valid_stdout (fv : List String) (info : Bool)
    (h1 : 1 ≤ fv.length) (hok : layoutOk (fv.getD 0 "")) :
    (mainResult fv info).stdout =
      (if 1 < fv.length ∧ info then moveMsgs (fv.getD 1 "") else ([], [])).1 ++
      (if 2 < fv.length then castlingMsgs (fv.getD 2 "") info else ([], [])).1 ++
      (if 3 < fv.length ∧ info then epMsgs (fv.getD 3 "") else []) ++
      [gridLine (boardCells (fv.getD 0 ""))] := by
  unfold mainResult
  rw [if_neg (by omega), if_pos hok]

/-- Standard error of a run that passes both fatal checks. -/
theorem valid_stderr (fv : List String) (info : Bool)
    (h1 : 1 ≤ fv.length) (hok : layoutOk (fv.getD 0 "")) :
    (mainResult fv info).stderr =
      (if fv.length = 6 then [] else [elemCountErr, exampleFenErr]) ++
      (if 1 < fv.length ∧ info then moveMsgs (fv.getD 1 "") else ([], [])).2 ++
      (if 2 < fv.length then castlingMsgs (fv.getD 2 "") info else ([], [])).2 := by
  unfold mainResult
  rw [if_neg (by omega), if_pos hok]

/-- Exit code of a run that passes both fatal checks. -/
theorem valid_exit (fv : List String) (info : Bool)
    (h1 : 1 ≤ fv.length) (hok : layoutOk (fv.getD 0 "")) :
    (mainResult fv info).exitCode = 0 := by
  unfold mainResult
  rw [if_neg (by omega), if_pos hok]

/-- The grid line is always printed by a run that passes both fatal
checks. -/
theorem grid_mem_valid_stdout (fv : List String) (info : Bool)
    (h1 : 1 ≤ fv.length) (hok : layoutOk (fv.getD 0 "")) :
    gridLine (boardCells (fv.getD 0 "")) ∈ (mainResult fv info).stdout := by
  rw [valid_stdout fv info h1 hok]
  simp

/-- A line absent from every block of a valid run's stdout is absent from
the whole stdout. -/
theorem not_mem_valid_stdout (fv : List String) (info : Bool) (t : String)
    (h1 : 1 ≤ fv.length) (hok : layoutOk (fv.getD 0 ""))
    (hmv : t ∉ (moveMsgs (fv.getD 1 "")).1)
    (hca : t ∉ (castlingMsgs (fv.getD 2 "") info).1)
    (hep : t ∉ epMsgs (fv.getD 3 ""))
    (hgrid : t ≠ gridLine (boardCells (fv.getD 0 ""))) :
    t ∉ (mainResult fv info).stdout := by
  rw [valid_stdout fv info h1 hok]
  intro hmem
  simp only [List.mem_append, List.mem_singleton] at hmem
  rcases hmem with (((hmem | hmem) | hmem) | hmem)
  · revert hmem; split_ifs <;> intro hmem
    · exact hmv hmem
    · simp at hmem
  · revert hmem; split_ifs <;> intro hmem
    · exact hca hmem
    · simp at hmem
  · revert hmem; split_ifs <;> intro hmem
    · exact hep hmem
    · simp at hmem
  · exact hgrid hmem

/-- A line absent from every block of a valid run's stderr is absent from
the whole stderr. -/
theorem not_mem_valid_stderr (fv : List String) (info : Bool) (t : String)
    (h1 : 1 ≤ fv.length) (hok : layoutOk (fv.getD 0 ""))
    (hc1 : t ≠ elemCountErr) (hc2 : t ≠ exampleFenErr) (hmv : t ≠ moveErr)
    (hca1 : t ≠ castleFindErr) (hca2 : t ≠ castleCharErr) :
    t ∉ (mainResult fv info).stderr := by
  rw [valid_stderr fv info h1 hok]
  intro hmem
  simp only [List.mem_append] at hmem
  rcases hmem with ((hmem | hmem) | hmem)
  · revert hmem; split_ifs <;> intro hmem <;> simp_all
  · revert hmem; split_ifs <;> intro hmem
    · exact hmv (moveMsgs_snd_mem _ t hmem)
    · simp at hmem
  · revert hmem; split_ifs <;> intro hmem
    · rcases castlingMsgs_snd_mem _ info t hmem with h | h
      · exact hca1 h
      · exact hca2 h
    · simp at hmem

/-- C3: for every FEN input with at least one whitespace-separated field,
if the placement field contains a character outside the legal alphabet
`KQBNRPkqbnrp12345678/` the process prints an error naming the offending
placement string to standard error and exits with status 1 (printing
nothing to standard output); if all placement characters are legal, this
fatal path is not taken: the run exits with status 0 and still prints the
terminal grid. -/
theorem C3_placement_alphabet (a : Args) (fv : List String)
    (hfv : splitWhitespace a.fen = fv) (h1 : 1 ≤ fv.length) :
    (¬ layoutOk (fv.getD 0 "") →
      fenRun a = some
        ⟨[], (if fv.length = 6 then [] else [elemCountErr, exampleFenErr])
          ++ [layoutErr (fv.getD 0 "")], 1⟩) ∧
    (layoutOk (fv.getD 0 "") →
      ∃ r, fenRun a = some r ∧ r.exitCode = 0 ∧
        gridLine (boardCells (fv.getD 0 "")) ∈ r.stdout) := by
  have hrun : fenRun a = some (mainResult fv a.info) := by
    unfold fenRun; rw [hfv, mainRun_eq]
  constructor
  · intro hbad
    rw [hrun]
    unfold mainResult
    rw [if_neg (by omega), if_neg hbad]
  · intro hok
    exact ⟨mainResult fv a.info, hrun, valid_exit fv a.info h1 hok,
      grid_mem_valid_stdout fv a.info h1 hok⟩

/-- C3 witness: the two-field FEN `"x w"`, whose placement field `"x"` is
outside the legal alphabet. -/
theorem C3_placement_alphabet_witness :
    fenRun ⟨"x w", false, false, false⟩ =
      some { stdout := [],
             stderr := [elemCountErr, exampleFenErr, layoutErr "x"],
             exitCode := 1 } :=
  (C3_placement_alphabet ⟨"x w", false, false, false⟩ ["x", "w"]
    (by decide) (by decide)).1 (by decide)

/-- C5: for every input FEN that splits into at least one but fewer than
six whitespace-separated fields, with a placement field entirely over the
legal alphabet and the window flag unset, the process prints the
"FEN does not contain 6 elements" warning to standard error, still prints
the terminal grid, and exits with status 0, not 1. -/
theorem C5_wrong_field_count (a : Args) (fv : List String)
    (hfv : splitWhitespace a.fen = fv) (h1 : 1 ≤ fv.length)
    (h6 : fv.length < 6) (hok : layoutOk (fv.getD 0 ""))
    (hw : a.window = false) :
    ∃ r, fenRun a = some r ∧ elemCountErr ∈ r.stderr ∧
      gridLine (boardCells (fv.getD 0 "")) ∈ r.stdout ∧ r.exitCode = 0 := by
  have hrun : fenRun a = some (mainResult fv a.info) := by
    unfold fenRun; rw [hfv, mainRun_eq]
  refine ⟨_, hrun, ?_, grid_mem_valid_stdout fv a.info h1 hok,
    valid_exit fv a.info h1 hok⟩
  rw [valid_stderr fv a.info h1 hok, if_neg (by omega)]
  simp

/-- `layoutErr f0` differs from any string that does not begin with the
fixed `layoutErr` prefix, whatever the offending field `f0` is. -/
theorem layoutErr_ne (f0 t : String)
    (h : t.data.take ("Error: Unexpected symbol in layout string ").data.length
      ≠ ("Error: Unexpected symbol in layout string ").data) :
    layoutErr f0 ≠ t :=
  append_ne_of_take _ f0 t h

/-- The verbatim en-passant line differs from any string that does not
begin with its fixed prefix, whatever the target square `f3` is. -/
theorem ep_target_ne (f3 t : String)
    (h : t.data.take ("En-passant target square is ").data.length
      ≠ ("En-passant target square is ").data) :
    "En-passant target square is " ++ f3 ≠ t :=
  append_ne_of_take _ f3 t h

/-- The grid stdout line differs from any string that does not begin with a
newline, whatever the board cells are. -/
theorem gridLine_ne (cells : List String) (t : String)
    (h : t.data.take ("\x0a").data.length ≠ ("\x0a").data) :
    gridLine cells ≠ t :=
  append_ne_of_take _ (renderGrid cells) t h

/-- Any line of the castling block's stdout is printed by a valid run. -/
theorem castle_mem_valid_stdout (fv : List String) (info : Bool) (t : String)
    (h1 : 1 ≤ fv.length) (hok : layoutOk (fv.getD 0 "")) (h3 : 2 < fv.length)
    (ht : t ∈ (castlingMsgs (fv.getD 2 "") info).1) :
    t ∈ (mainResult fv info).stdout := by
  rw [valid_stdout fv info h1 hok, if_pos h3]
  simp only [List.mem_append]
  exact Or.inl (Or.inl (Or.inr ht))

/-- A line other than the announcements of the move, en-passant and grid
blocks that is not in the castling stdout is absent from a valid run's
stdout. -/
theorem announce_not_mem_valid_stdout (fv : List String) (info : Bool)
    (t : String) (h1 : 1 ≤ fv.length) (hok : layoutOk (fv.getD 0 ""))
    (hca : t ∉ (castlingMsgs (fv.getD 2 "") info).1)
    (hw : t ≠ "White to move") (hb : t ≠ "Black to move")
    (hn : t ≠ "No en-passant target square is available")
    (hel : t.data.take ("En-passant target square is ").data.length
      ≠ ("En-passant target square is ").data)
    (hgl : t.data.take ("\x0a").data.length ≠ ("\x0a").data) :
    t ∉ (mainResult fv info).stdout := by
  apply not_mem_valid_stdout fv info t h1 hok
  · intro hm
    rcases moveMsgs_fst_mem _ _ hm with h | h
    · exact hw h
    · exact hb h
  · exact hca
  · intro hm
    rcases epMsgs_mem _ _ hm with h | h
    · exact hn h
    · exact ep_target_ne (fv.getD 3 "") t hel h.symm
  · exact Ne.symm (gridLine_ne _ t hgl)

/-- With the info flag unset a valid run's stdout is exactly the grid
line. -/
theorem valid_stdout_false_info (fv : List String)
    (h1 : 1 ≤ fv.length) (hok : layoutOk (fv.getD 0 "")) :
    (mainResult fv false).stdout = [gridLine (boardCells (fv.getD 0 ""))] := by
  rw [valid_stdout fv false h1 hok]
  split_ifs <;> simp_all [castlingMsgs_fst_false]

/-- With the info flag unset a valid run's stderr has no move-block line. -/
theorem valid_stderr_false_info (fv : List String)
    (h1 : 1 ≤ fv.length) (hok : layoutOk (fv.getD 0 "")) :
    (mainResult fv false).stderr =
      (if fv.length = 6 then [] else [elemCountErr, exampleFenErr]) ++
      (if 2 < fv.length then castlingMsgs (fv.getD 2 "") false
       else ([], [])).2 := by
  rw [valid_stderr fv false h1 hok]
  simp

/-- Membership of a non-count, non-move line in a valid run's stderr is
membership in the castling block's stderr. -/
theorem castle_err_mem_valid_stderr (fv : List String) (info : Bool)
    (t : String) (h1 : 1 ≤ fv.length) (hok : layoutOk (fv.getD 0 ""))
    (h3 : 2 < fv.length) (hc1 : t ≠ elemCountErr) (hc2 : t ≠ exampleFenErr)
    (hmv : t ≠ moveErr) :
    t ∈ (mainResult fv info).stderr ↔
      t ∈ (castlingMsgs (fv.getD 2 "") info).2 := by
  rw [valid_stderr fv info h1 hok, if_pos h3]
  simp only [List.mem_append]
  constructor
  · rintro ((hm | hm) | hm)
    · revert hm; split_ifs <;> intro hm
      · simp at hm
      · simp only [List.mem_cons, List.not_mem_nil, or_false] at hm
        rcases hm with h | h
        · exact absurd h hc1
        · exact absurd h hc2
    · revert hm; split_ifs <;> intro hm
      · exact absurd (moveMsgs_snd_mem _ _ hm) hmv
      · simp at hm
    · exact hm
  · exact fun hm => Or.inr hm

/-- C5 witness: the two-field FEN `"8/8/8/8/8/8/8/8 w"`. -/
theorem C5_wrong_field_count_witness :
    ∃ r, fenRun ⟨"8/8/8/8/8/8/8/8 w", false, false, false⟩ = some r ∧
      elemCountErr ∈ r.stderr ∧
      gridLine (boardCells
        ((["8/8/8/8/8/8/8/8", "w"] : List String).getD 0 "")) ∈ r.stdout ∧
      r.exitCode = 0 :=
  C5_wrong_field_count ⟨"8/8/8/8/8/8/8/8 w", false, false, false⟩
    ["8/8/8/8/8/8/8/8", "w"] (by decide) (by decide) (by decide) (by decide)
    rfl

/-- C6 counterexample: the six-field FEN `"8 w - - 0 1"` is accepted past
both fatal checks (the run exits with status 0 and renders), yet the board
model built from its placement field `"8"` has 8 cells, not 64. -/
theorem C6_counterexample :
    fenRun ⟨"8 w - - 0 1", false, false, false⟩ =
      some ⟨[gridLine (boardCells "8")], [], 0⟩ ∧
    (boardCells "8").length = 8 ∧ (boardCells "8").length ≠ 64 := by
  decide

/-- A flat list of lists, each of length 8, has total length `8 *` the
number of lists. -/
theorem flatten_length_const (L : List (List String))
    (h : ∀ l ∈ L, l.length = 8) : L.flatten.length = 8 * L.length := by
  induction L with
  | nil => simp
  | cons a t ih =>
    simp only [List.flatten_cons, List.length_append, List.length_cons]
    rw [h a (by simp), ih fun l hl => h l (by simp [hl])]
    ring

/-- C6 (amended): the board model has exactly 64 cells whenever the
placement field splits into 8 ranks each of which expands to 8 cells; the
builder performs no check enforcing this, and an accepted placement such
as `"8"` (see the counterexample) yields a board with a different cell
count. -/
theorem C6_board_64 (placement : String)
    (hranks : (splitSlash placement).length = 8)
    (hcells : ∀ r ∈ splitSlash placement, (rankCells r).length = 8) :
    (boardCells placement).length = 64 := by
  unfold boardCells fenTranslated
  rw [flatten_length_const]
  · rw [List.length_map, hranks]
  · intro l hl
    rw [List.mem_map] at hl
    obtain ⟨r, hr, rfl⟩ := hl
    exact hcells r hr

/-- C6 witness: the starting-position placement field. -/
theorem C6_board_64_witness :
    (boardCells "rnbqkbnr/pppppppp/8/8/8/8/PPPPPPPP/RNBQKBNR").length = 64 :=
  C6_board_64 "rnbqkbnr/pppppppp/8/8/8/8/PPPPPPPP/RNBQKBNR"
    (by decide) (by decide)

/-- C7 counterexample: for the FEN `"x w -"` with the info flag set, the
third field is `"-"`, yet standard output does not contain the line
"Neither side can castle": the placement field `"x"` makes the run exit at
the earlier fatal placement check with an empty standard output. -/
theorem C7_counterexample :
    (splitWhitespace "x w -").getD 2 "" = "-" ∧
    fenRun ⟨"x w -", false, true, false⟩ =
      some ⟨[], [elemCountErr, exampleFenErr, layoutErr "x"], 1⟩ ∧
    "Neither side can castle" ∉
      (RunResult.mk [] [elemCountErr, exampleFenErr, layoutErr "x"] 1).stdout := by
  decide

/-- C7 (amended): for a FEN accepted past the fatal checks (at least one
field, placement over the legal alphabet), when the info flag is set and
the castling-rights field exists: if it equals `"-"`, standard output
contains "Neither side can castle" and none of the four individual-side
castling lines; if it equals `"KQ"`, standard output contains both white
castling lines and neither black one. -/
theorem C7_castling_info (a : Args) (fv : List String)
    (hfv : splitWhitespace a.fen = fv) (h1 : 1 ≤ fv.length)
    (hok : layoutOk (fv.getD 0 "")) (h3 : 2 < fv.length)
    (hinfo : a.info = true) :
    ∃ r, fenRun a = some r ∧
      (fv.getD 2 "" = "-" →
        "Neither side can castle" ∈ r.stdout ∧
        "White can castle kingside" ∉ r.stdout ∧
        "White can castle queenside" ∉ r.stdout ∧
        "Black can castle kingside" ∉ r.stdout ∧
        "Black can castle queenside" ∉ r.stdout) ∧
      (fv.getD 2 "" = "KQ" →
        "White can castle kingside" ∈ r.stdout ∧
        "White can castle queenside" ∈ r.stdout ∧
        "Black can castle kingside" ∉ r.stdout ∧
        "Black can castle queenside" ∉ r.stdout) := by
  have hrun : fenRun a = some (mainResult fv a.info) := by
    unfold fenRun; rw [hfv, mainRun_eq]
  refine ⟨_, hrun, fun hf2 => ⟨?_, ?_, ?_, ?_, ?_⟩, fun hf2 => ⟨?_, ?_, ?_, ?_⟩⟩
  · exact castle_mem_valid_stdout fv a.info _ h1 hok h3
      (by rw [hf2, hinfo]; decide)
  · exact announce_not_mem_valid_stdout fv a.info _ h1 hok
      (by rw [hf2, hinfo]; decide) (by decide) (by decide) (by decide)
      (by decide) (by decide)
  · exact announce_not_mem_valid_stdout fv a.info _ h1 hok
      (by rw [hf2, hinfo]; decide) (by decide) (by decide) (by decide)
      (by decide) (by decide)
  · exact announce_not_mem_valid_stdout fv a.info _ h1 hok
      (by rw [hf2, hinfo]; decide) (by decide) (by decide) (by decide)
      (by decide) (by decide)
  · exact announce_not_mem_valid_stdout fv a.info _ h1 hok
      (by rw [hf2, hinfo]; decide) (by decide) (by decide) (by decide)
      (by decide) (by decide)
  · exact castle_mem_valid_stdout fv a.info _ h1 hok h3
      (by rw [hf2, hinfo]; decide)
  · exact castle_mem_valid_stdout fv a.info _ h1 hok h3
      (by rw [hf2, hinfo]; decide)
  · exact announce_not_mem_valid_stdout fv a.info _ h1 hok
      (by rw [hf2, hinfo]; decide) (by decide) (by decide) (by decide)
      (by decide) (by decide)
  · exact announce_not_mem_valid_stdout fv a.info _ h1 hok
      (by rw [hf2, hinfo]; decide) (by decide) (by decide) (by decide)
      (by decide) (by decide)

/-- C7 witness: the starting position with castling field `"-"`. -/
theorem C7_castling_info_witness :
    ∃ r, fenRun ⟨"8/8/8/8/8/8/8/8 w - - 0 1", false, true, false⟩ = some r ∧
      ((["8/8/8/8/8/8/8/8", "w", "-", "-", "0", "1"] : List String).getD 2 ""
          = "-" →
        "Neither side can castle" ∈ r.stdout ∧
        "White can castle kingside" ∉ r.stdout ∧
        "White can castle queenside" ∉ r.stdout ∧
        "Black can castle kingside" ∉ r.stdout ∧
        "Black can castle queenside" ∉ r.stdout) ∧
      ((["8/8/8/8/8/8/8/8", "w", "-", "-", "0", "1"] : List String).getD 2 ""
          = "KQ" →
        "White can castle kingside" ∈ r.stdout ∧
        "White can castle queenside" ∈ r.stdout ∧
        "Black can castle kingside" ∉ r.stdout ∧
        "Black can castle queenside" ∉ r.stdout) :=
  C7_castling_info ⟨"8/8/8/8/8/8/8/8 w - - 0 1", false, true, false⟩
    ["8/8/8/8/8/8/8/8", "w", "-", "-", "0", "1"]
    (by decide) (by decide) (by decide) (by decide) rfl

/-- C8 counterexample: the three-field FEN `"x y z"` has a castling field
`"z"` with no character from `castleChars`, yet the castling error is not
printed: the placement field `"x"` makes the run exit at the earlier fatal
placement check. -/
theorem C8_counterexample :
    2 < (splitWhitespace "x y z").length ∧
    (∀ c ∈ ((splitWhitespace "x y z").getD 2 "").toList, c ∉ castleChars) ∧
    fenRun ⟨"x y z", false, false, false⟩ =
      some ⟨[], [elemCountErr, exampleFenErr, layoutErr "x"], 1⟩ ∧
    castleFindErr ∉
      (RunResult.mk [] [elemCountErr, exampleFenErr, layoutErr "x"] 1).stderr := by
  decide

/-- C8 (amended): for every input with at least three whitespace-separated
fields whose placement field is entirely over the legal alphabet,
regardless of the info flag: `castleFindErr` is printed to standard error
iff the castling field contains no character from `{-,K,Q,k,q}`,
`castleCharErr` is printed iff some character falls outside that set, and
in neither case does the process exit — the run exits with status 0 and
the terminal grid is still printed. -/
theorem C8_castling_diagnostics (a : Args) (fv : List String)
    (hfv : splitWhitespace a.fen = fv) (hok : layoutOk (fv.getD 0 ""))
    (h3 : 2 < fv.length) :
    ∃ r, fenRun a = some r ∧
      (castleFindErr ∈ r.stderr ↔
        ∀ c ∈ (fv.getD 2 "").toList, c ∉ castleChars) ∧
      (castleCharErr ∈ r.stderr ↔
        ¬ ∀ c ∈ (fv.getD 2 "").toList, c ∈ castleChars) ∧
      r.exitCode = 0 ∧ gridLine (boardCells (fv.getD 0 "")) ∈ r.stdout := by
  have h1 : 1 ≤ fv.length := by omega
  have hrun : fenRun a = some (mainResult fv a.info) := by
    unfold fenRun; rw [hfv, mainRun_eq]
  refine ⟨_, hrun, ?_, ?_, valid_exit fv a.info h1 hok,
    grid_mem_valid_stdout fv a.info h1 hok⟩
  · rw [castle_err_mem_valid_stderr fv a.info _ h1 hok h3
      (by decide) (by decide) (by decide)]
    exact castleFindErr_mem_iff _ _
  · rw [castle_err_mem_valid_stderr fv a.info _ h1 hok h3
      (by decide) (by decide) (by decide)]
    exact castleCharErr_mem_iff _ _

/-- C8 witness: the full starting-position FEN, castling field `"KQkq"`. -/
theorem C8_castling_diagnostics_witness :
    ∃ r, fenRun ⟨"8/8/8/8/8/8/8/8 w KQkq - 0 1", false, false, false⟩
        = some r ∧
      (castleFindErr ∈ r.stderr ↔
        ∀ c ∈ (List.getD ["8/8/8/8/8/8/8/8", "w", "KQkq", "-", "0", "1"]
          2 "").toList, c ∉ castleChars) ∧
      (castleCharErr ∈ r.stderr ↔
        ¬ ∀ c ∈ (List.getD ["8/8/8/8/8/8/8/8", "w", "KQkq", "-", "0", "1"]
          2 "").toList, c ∈ castleChars) ∧
      r.exitCode = 0 ∧
      gridLine (boardCells
        (List.getD ["8/8/8/8/8/8/8/8", "w", "KQkq", "-", "0", "1"]
          0 "")) ∈ r.stdout :=
  C8_castling_diagnostics ⟨"8/8/8/8/8/8/8/8 w KQkq - 0 1", false, false, false⟩
    ["8/8/8/8/8/8/8/8", "w", "KQkq", "-", "0", "1"]
    (by decide) (by decide) (by decide)

/-- C9 counterexample: for the FEN `"x w"` with the info flag set, the
second field is `"w"`, yet "White to move" is not printed: the placement
field `"x"` makes the run exit at the fatal placement check with an empty
standard output. -/
theorem C9_counterexample :
    (splitWhitespace "x w").getD 1 "" = "w" ∧
    fenRun ⟨"x w", false, true, false⟩ =
      some ⟨[], [elemCountErr, exampleFenErr, layoutErr "x"], 1⟩ ∧
    "White to move" ∉
      (RunResult.mk [] [elemCountErr, exampleFenErr, layoutErr "x"] 1).stdout := by
  decide

/-- C9 (amended): the active-color field is inspected only when the info
flag is set.  With info unset, no active-color output or error is ever
produced, whatever the input.  With info set, for a run that reaches the
active-color block (a second field exists and the placement field is over
the legal alphabet): `"w"` prints "White to move", `"b"` prints
"Black to move", and any other value prints the move error to standard
error without terminating the process (the run exits with status 0). -/
theorem C9_active_color (a : Args) (fv : List String)
    (hfv : splitWhitespace a.fen = fv) :
    (a.info = false → ∀ r, fenRun a = some r →
      "White to move" ∉ r.stdout ∧ "Black to move" ∉ r.stdout ∧
      moveErr ∉ r.stderr) ∧
    (a.info = true → 1 < fv.length → layoutOk (fv.getD 0 "") →
      ∃ r, fenRun a = some r ∧ r.exitCode = 0 ∧
        (fv.getD 1 "" = "w" → "White to move" ∈ r.stdout) ∧
        (fv.getD 1 "" = "b" → "Black to move" ∈ r.stdout) ∧
        (fv.getD 1 "" ≠ "w" → fv.getD 1 "" ≠ "b" → moveErr ∈ r.stderr)) := by
  have hrun : fenRun a = some (mainResult fv a.info) := by
    unfold fenRun; rw [hfv, mainRun_eq]
  constructor
  · intro hinfo r hr
    rw [hinfo] at hrun
    rw [hrun] at hr
    obtain rfl : mainResult fv false = r := Option.some.inj hr
    by_cases hl : fv.length < 1
    · refine ⟨?_, ?_, ?_⟩ <;> unfold mainResult <;> rw [if_pos hl]
      · simp
      · simp
      · show moveErr ∉ (if fv.length = 6 then [] else [elemCountErr, exampleFenErr])
        split_ifs <;> decide
    · by_cases hok : layoutOk (fv.getD 0 "")
      · have h1 : 1 ≤ fv.length := by omega
        refine ⟨?_, ?_, ?_⟩
        · rw [valid_stdout_false_info fv h1 hok]
          simp only [List.mem_singleton]
          exact Ne.symm (gridLine_ne _ _ (by decide))
        · rw [valid_stdout_false_info fv h1 hok]
          simp only [List.mem_singleton]
          exact Ne.symm (gridLine_ne _ _ (by decide))
        · rw [valid_stderr_false_info fv h1 hok]
          intro hm
          rcases List.mem_append.mp hm with hm | hm
          · revert hm; split_ifs <;> intro hm <;> revert hm <;> decide
          · revert hm; split_ifs <;> intro hm
            · exact absurd (castlingMsgs_snd_mem _ _ _ hm) (by decide)
            · simp at hm
      · refine ⟨?_, ?_, ?_⟩ <;> unfold mainResult <;>
          rw [if_neg hl, if_neg hok]
        · simp
        · simp
        · intro hm
          rcases List.mem_append.mp hm with hm | hm
          · revert hm; split_ifs <;> intro hm <;> revert hm <;> decide
          · simp only [List.mem_singleton] at hm
            exact layoutErr_ne (fv.getD 0 "") moveErr (by decide) hm.symm
  · intro hinfo h2 hok
    have h1 : 1 ≤ fv.length := by omega
    rw [hinfo] at hrun
    refine ⟨_, hrun, valid_exit fv true h1 hok, ?_, ?_, ?_⟩
    · intro hf1
      rw [valid_stdout fv true h1 hok, hf1, moveMsgs_w]
      simp [h2]
    · intro hf1
      rw [valid_stdout fv true h1 hok, hf1, moveMsgs_b]
      simp [h2]
    · intro hw hb
      rw [valid_stderr fv true h1 hok, moveMsgs_other _ hw hb]
      simp [h2]

/-- C9 witness: the two-field FEN `"8/8/8/8/8/8/8/8 w"` with info set. -/
theorem C9_active_color_witness :
    ∃ r, fenRun ⟨"8/8/8/8/8/8/8/8 w", false, true, false⟩ = some r ∧
      r.exitCode = 0 ∧
      ((["8/8/8/8/8/8/8/8", "w"] : List String).getD 1 "" = "w" →
        "White to move" ∈ r.stdout) ∧
      ((["8/8/8/8/8/8/8/8", "w"] : List String).getD 1 "" = "b" →
        "Black to move" ∈ r.stdout) ∧
      ((["8/8/8/8/8/8/8/8", "w"] : List String).getD 1 "" ≠ "w" →
        (["8/8/8/8/8/8/8/8", "w"] : List String).getD 1 "" ≠ "b" →
        moveErr ∈ r.stderr) :=
  (C9_active_color ⟨"8/8/8/8/8/8/8/8 w", false, true, false⟩
    ["8/8/8/8/8/8/8/8", "w"] (by decide)).2 rfl (by decide) (by decide)

end FENrs
